import Mathlib

/-!
# Verification of the trendFinder source aggregator

A shallow embedding of `src/services/scrapeSources.ts` (the current source
variant of the aggregator) together with proofs about its normalization,
deduplication, classification and driving-loop logic.

Conventions of the embedding:
* JavaScript strings are Lean `String`s; all string primitives used by the
  code (`trim`, `toLowerCase`, `endsWith`, `startsWith`, `split`) are
  re-implemented structurally over `List Char` so that every definition is
  executable and kernel-reducible.
* `null`/`undefined`-able fields become `Option`; JS truthiness of a string
  (`""` is falsy) is modelled explicitly where the code relies on it.
* Fallible operations (`fetch`, `app.extract`, thrown errors) return
  `Except`; a JS `try { } catch { }` becomes a `match` on the `Except`.
* The behaviour of the two external backends is an oracle parameter, so
  theorems quantify over every possible backend response.
* Console output is modelled as an event trace carried in the loop state,
  with one extra instrumentation event (`apifyInvoked`) marking each actual
  social-backend call.
-/

namespace TrendFinder

/-! ## String primitives (models of the JS string operations used) -/

/-- Characters removed by `String.prototype.trim` (restricted to the ASCII
whitespace actually occurring in the data handled here). -/
def isJsSpace (c : Char) : Bool :=
  c == ' ' || c == '\t' || c == '\n' || c == '\r'

/-- Model of `s.trim()`. -/
def jsTrim (s : String) : String :=
  String.mk (((s.data.dropWhile isJsSpace).reverse.dropWhile isJsSpace).reverse)

/-- Model of `s.toLowerCase()` (ASCII case mapping, as in `Char.toLower`). -/
def strToLower (s : String) : String :=
  String.mk (s.data.map Char.toLower)

/-- Model of `s.endsWith(suffix)`. -/
def strEndsWith (s suff : String) : Bool :=
  s.data.drop (s.data.length - suff.data.length) == suff.data

/-- Model of `s.startsWith(pre)`. -/
def strStartsWith (s p : String) : Bool :=
  s.data.take p.data.length == p.data

/-- Model of `s.split(sep)` for a single-character separator. -/
def splitOnChar (c : Char) : List Char → List (List Char)
  | [] => [[]]
  | x :: xs =>
    let r := splitOnChar c xs
    if x == c then [] :: r
    else
      match r with
      | [] => [[x]]
      | y :: ys => (x :: y) :: ys

/-- Value of a list of decimal digit characters. -/
def digitsVal (cs : List Char) : Nat :=
  cs.foldl (fun a c => a * 10 + (c.toNat - 48)) 0

/-- Parse exactly `w` decimal digits. -/
def parseFixedNat (w : Nat) (cs : List Char) : Option Nat :=
  if cs.length = w ∧ cs.all Char.isDigit then some (digitsVal cs) else none

/-- Decimal digit character for `n % 10`. -/
def digitChar10 (n : Nat) : Char :=
  Char.ofNat (48 + n % 10)

/-- Exactly `w` decimal digits of `n`, zero padded (most significant first). -/
def padNumChars : Nat → Nat → List Char
  | 0, _ => []
  | w + 1, n => padNumChars w (n / 10) ++ [digitChar10 n]

/-- Zero-padded fixed-width decimal rendering, as used by `toISOString`. -/
def padNum (w n : Nat) : String :=
  String.mk (padNumChars w n)

/-- Decimal rendering of a `Nat` (fuel-based so it is structurally
recursive); used only to build log/error message strings. -/
def natToDigitsAux : Nat → Nat → List Char
  | 0, _ => []
  | _ + 1, 0 => []
  | fuel + 1, n => natToDigitsAux fuel (n / 10) ++ [digitChar10 n]

def natToStr (n : Nat) : String :=
  if n = 0 then "0" else String.mk (natToDigitsAux n n)

/-! ## JS date model

Model of the ECMAScript `Date` built-in, restricted to the UTC forms of the
Date Time String Format (`YYYY-MM-DD`, optionally followed by
`THH:mm[:ss[.sss]]Z`).  Offset-less date-times and explicit numeric offsets
are outside the model and parse to `none`.  `toISOString` re-serializes the
stored fields in canonical form. -/

structure JsDate where
  year : Nat
  month : Nat
  day : Nat
  hour : Nat
  minute : Nat
  second : Nat
  ms : Nat
deriving DecidableEq, Repr

def isLeapYear (y : Nat) : Bool :=
  (y % 4 == 0 && y % 100 != 0) || y % 400 == 0

def daysInMonth (y m : Nat) : Nat :=
  if m = 2 then (if isLeapYear y then 29 else 28)
  else if m = 4 ∨ m = 6 ∨ m = 9 ∨ m = 11 then 30 else 31

def parseDateFields (cs : List Char) : Option (Nat × Nat × Nat) :=
  match splitOnChar '-' cs with
  | [ys, ms, ds] =>
    match parseFixedNat 4 ys, parseFixedNat 2 ms, parseFixedNat 2 ds with
    | some y, some mo, some d =>
      if 1 ≤ mo ∧ mo ≤ 12 ∧ 1 ≤ d ∧ d ≤ daysInMonth y mo then
        some (y, mo, d)
      else none
    | _, _, _ => none
  | _ => none

def parseSecondFields (cs : List Char) : Option (Nat × Nat) :=
  match splitOnChar '.' cs with
  | [ss] =>
    match parseFixedNat 2 ss with
    | some s => if s ≤ 59 then some (s, 0) else none
    | none => none
  | [ss, mss] =>
    match parseFixedNat 2 ss, parseFixedNat 3 mss with
    | some s, some ms => if s ≤ 59 then some (s, ms) else none
    | _, _ => none
  | _ => none

def parseTimeFields (cs : List Char) : Option (Nat × Nat × Nat × Nat) :=
  match splitOnChar ':' cs with
  | [hs, ms] =>
    match parseFixedNat 2 hs, parseFixedNat 2 ms with
    | some h, some mi => if h ≤ 23 ∧ mi ≤ 59 then some (h, mi, 0, 0) else none
    | _, _ => none
  | [hs, ms, ss] =>
    match parseFixedNat 2 hs, parseFixedNat 2 ms, parseSecondFields ss with
    | some h, some mi, some (s, milli) =>
      if h ≤ 23 ∧ mi ≤ 59 then some (h, mi, s, milli) else none
    | _, _, _ => none
  | _ => none

/-- Model of `new Date(s)` on the UTC ISO-8601 forms (see module comment);
returns `none` exactly when the real construction would yield an Invalid
Date (within the modelled grammar). -/
def jsDateParse (s : String) : Option JsDate :=
  match splitOnChar 'T' s.data with
  | [ds] =>
    (parseDateFields ds).map (fun p => ⟨p.1, p.2.1, p.2.2, 0, 0, 0, 0⟩)
  | [ds, ts] =>
    match ts.reverse with
    | 'Z' :: restRev =>
      match parseDateFields ds, parseTimeFields restRev.reverse with
      | some (y, mo, d), some (h, mi, sec, milli) =>
        some ⟨y, mo, d, h, mi, sec, milli⟩
      | _, _ => none
    | _ => none
  | _ => none

/-- Model of `Date.prototype.toISOString` (for years 0–9999). -/
def jsToISOString (d : JsDate) : String :=
  padNum 4 d.year ++ "-" ++ padNum 2 d.month ++ "-" ++ padNum 2 d.day ++ "T" ++
  padNum 2 d.hour ++ ":" ++ padNum 2 d.minute ++ ":" ++ padNum 2 d.second ++
  "." ++ padNum 3 d.ms ++ "Z"

/-! ## Data model (scrapeSources.ts lines 22–48) -/

/-- The canonical output record (`StorySchema`). -/
structure Story where
  headline : String
  link : String
  date_posted : String
deriving DecidableEq, Repr

/-- Raw social item shape (`ApifyTweetItem`).  Items are modelled as
records; the `!item` null-guard of line 94 is vacuous in the model. -/
structure ApifyTweetItem where
  id : Option String := none
  text : Option String := none
  full_text : Option String := none
  url : Option String := none
  twitterUrl : Option String := none
  createdAt : Option String := none
  created_at : Option String := none
  date : Option String := none
  type : Option String := none
deriving DecidableEq, Repr

/-! ## Per-item normalization (`mapApifyItemsToStories`, lines 87–132) -/

/-- Guard of line 94: `item.type && item.type !== "tweet"` (note JS
truthiness: an empty-string type tag does not trigger the skip). -/
def skipByType (item : ApifyTweetItem) : Bool :=
  match item.type with
  | some t => !(t == "") && !(t == "tweet")
  | none => false

/-- Lines 98–99: `(item.text ?? item.full_text ?? "").trim()`. -/
def computeHeadline (item : ApifyTweetItem) : String :=
  jsTrim ((item.text <|> item.full_text).getD "")

/-- Lines 104–109: candidate links (explicit url, twitterUrl, synthesized
status link when `item.id` is truthy), trimmed, first non-empty. -/
def computeLink (item : ApifyTweetItem) : Option String :=
  let statusLink : Option String :=
    match item.id with
    | some i => if i = "" then none else some ("https://x.com/i/status/" ++ i)
    | none => none
  (([item.url, item.twitterUrl, statusLink]).map
      (fun v => jsTrim (v.getD ""))).find? (fun v => v.length != 0)

/-- Lines 115–122: first present date field, parsed; fallback on absence,
falsy string, or parse failure. -/
def computeDate (item : ApifyTweetItem) (fallbackDateIso : String) : String :=
  match item.createdAt <|> item.created_at <|> item.date with
  | none => fallbackDateIso
  | some rawDate =>
    if rawDate = "" then fallbackDateIso
    else
      match jsDateParse rawDate with
      | some d => jsToISOString d
      | none => fallbackDateIso

/-- One iteration of the loop body of `mapApifyItemsToStories`: `none`
when the item is skipped, otherwise the key/value pair passed to
`deduped.set`. -/
def normalizeItem (item : ApifyTweetItem) (fallbackDateIso : String) :
    Option (String × Story) :=
  if skipByType item then none
  else if computeHeadline item = "" then none
  else
    match computeLink item with
    | none => none
    | some link =>
      some (link, { headline := computeHeadline item, link := link,
                    date_posted := computeDate item fallbackDateIso })

/-- Model of `Map.prototype.set`: overwrite in place (keeping the original
insertion position) if the key exists, else append. -/
def mapSet : List (String × Story) → String → Story → List (String × Story)
  | [], k, v => [(k, v)]
  | (k₀, v₀) :: rest, k, v =>
    if k₀ = k then (k, v) :: rest else (k₀, v₀) :: mapSet rest k v

/-- Model of `Map.prototype.get`. -/
def mapGet : List (String × Story) → String → Option Story
  | [], _ => none
  | (k₀, v₀) :: rest, k => if k₀ = k then some v₀ else mapGet rest k

/-- The sequence of key/value pairs inserted into the `deduped` map, in
iteration order. -/
def normalizedEntries (items : List ApifyTweetItem) (fallbackDateIso : String) :
    List (String × Story) :=
  items.filterMap (fun item => normalizeItem item fallbackDateIso)

/-- `mapApifyItemsToStories`: build the insertion-ordered map, then
`Array.from(deduped.values())`. -/
def mapApifyItemsToStories (items : List ApifyTweetItem)
    (fallbackDateIso : String) : List Story :=
  ((normalizedEntries items fallbackDateIso).foldl
    (fun m p => mapSet m p.1 p.2) []).map Prod.snd

/-! ## Source classifier (`extractTwitterUsername`, lines 64–85) -/

structure UrlParts where
  hostname : String
  pathname : String
deriving DecidableEq, Repr

/-- Scan for the first `://` in the string. -/
def splitScheme : List Char → Option (List Char × List Char)
  | ':' :: '/' :: '/' :: rest => some ([], rest)
  | c :: rest => (splitScheme rest).map (fun p => (c :: p.1, p.2))
  | [] => none

/-- Model of `new URL(s)` restricted to the fields the classifier reads
(`hostname`, `pathname`); `none` models the constructor throwing. -/
def parseUrl (s : String) : Option UrlParts :=
  match splitScheme s.data with
  | none => none
  | some (scheme, rest) =>
    if scheme.isEmpty ∨ ¬ scheme.all Char.isAlpha then none
    else
      let auth := rest.takeWhile (fun c => !(c == '/' || c == '?' || c == '#'))
      let tail := rest.drop auth.length
      let afterUser := (splitOnChar '@' auth).getLastD auth
      let hostChars := afterUser.takeWhile (fun c => !(c == ':'))
      if hostChars.isEmpty then none
      else
        let path := tail.takeWhile (fun c => !(c == '?' || c == '#'))
        some ⟨strToLower (String.mk hostChars),
              if path.isEmpty then "/" else String.mk path⟩

/-- Line 66: prefix a scheme when the source does not start with "http". -/
def withScheme (source : String) : String :=
  if strStartsWith source "http" then source else "https://" ++ source

/-- Line 81: `firstSegment.replace(/^@/, "")`. -/
def stripLeadingAt (s : String) : String :=
  match s.data with
  | '@' :: rest => String.mk rest
  | _ => s

/-- `extractTwitterUsername` (lines 64–85). -/
def extractTwitterUsername (source : String) : Option String :=
  match parseUrl (withScheme source) with
  | none => none
  | some url =>
    let host := strToLower url.hostname
    if strEndsWith host "x.com" || strEndsWith host "twitter.com" then
      match (splitOnChar '/' url.pathname.data).filter
          (fun seg => !seg.isEmpty) with
      | [] => none
      | firstSegment :: _ =>
        if strToLower (String.mk firstSegment) ∈
            (["i", "hashtag", "search"] : List String) then none
        else some (stripLeadingAt (String.mk firstSegment))
    else none

/-! ## Configuration (lines 10–20, 50–55, 194–195) -/

/-- Model of `parseInt(s, 10)`: `none` is `NaN`. -/
def jsParseInt (s : String) : Option Int :=
  let cs := s.data.dropWhile isJsSpace
  let leadingVal : List Char → Option Nat := fun l =>
    let ds := l.takeWhile Char.isDigit
    if ds.isEmpty then none else some (digitsVal ds)
  match cs with
  | '-' :: rest => (leadingVal rest).map (fun n => -(n : Int))
  | '+' :: rest => (leadingVal rest).map (fun n => (n : Int))
  | rest => (leadingVal rest).map (fun n => (n : Int))

/-- `apifyMaxItems` (lines 15–20), as a function of the raw environment
variable `APIFY_TWITTER_MAX_ITEMS` (`none` = unset; `""` is falsy). -/
def computeApifyMaxItems (raw : Option String) : Nat :=
  match raw with
  | none => 20
  | some s =>
    if s = "" then 20
    else
      match jsParseInt s with
      | none => 20
      | some parsed => if 0 < parsed then min parsed.toNat 100 else 20

/-- Process-wide configuration as read at startup. -/
structure Config where
  /-- `hasApifyCredentials` (line 52): token and actor id both present. -/
  hasApifyCredentials : Bool
  /-- Raw `APIFY_TWITTER_MAX_ITEMS` environment value. -/
  apifyMaxItemsRaw : Option String
  /-- `lookbackStart.toISOString()` (line 174), fixed for the run. -/
  fallbackDateIso : String

def Config.apifyMaxItems (cfg : Config) : Nat :=
  computeApifyMaxItems cfg.apifyMaxItemsRaw

/-- Line 194: `const useScrape = true`. -/
def useScrape : Bool := true

/-- Line 195: `const useTwitter = hasApifyCredentials`. -/
def useTwitter (cfg : Config) : Bool := cfg.hasApifyCredentials

/-! ## Backend behaviour oracles -/

/-- Everything the code observes of the Apify payload: the value of
`Array.isArray(payload) ? payload : payload?.items ?? payload?.data ?? []`
is either an array of items or a non-array (the warning case). -/
inductive ApifyPayload where
  /-- Payload itself is an array. -/
  | arrayOf (items : List ApifyTweetItem)
  /-- Items nested under `items`/`data` (or defaulted to `[]`). -/
  | nested (items : List ApifyTweetItem)
  /-- Extraction produced a non-array value. -/
  | nonArray
deriving DecidableEq

/-- Behaviour of one `fetch` to the Apify endpoint. -/
inductive FetchOutcome where
  /-- The awaited `fetch` (or body read) rejected. -/
  | networkError (msg : String)
  /-- `response.ok` false: status, statusText and body text. -/
  | httpError (status : Nat) (statusText : String) (body : String)
  /-- 2xx response with a JSON payload. -/
  | success (payload : ApifyPayload)
deriving DecidableEq

/-- A thrown JS error as observed by the generic-path catch (only
`error.statusCode` and a message are inspected). -/
structure JsError where
  statusCode : Option Nat
  message : String
deriving DecidableEq

/-- Behaviour of one `app.extract` call. -/
inductive ExtractOutcome where
  /-- The awaited call rejected with this error. -/
  | thrown (e : JsError)
  /-- Resolved with `success: false` and this error message. -/
  | failure (err : String)
  /-- Resolved successfully but `data` is falsy or lacks `stories`. -/
  | missingStories
  /-- Resolved successfully with `data.stories`. -/
  | stories (l : List Story)
deriving DecidableEq

/-- Joint behaviour of both backends for one source position. -/
structure BackendBehavior where
  social : FetchOutcome
  generic : ExtractOutcome
deriving DecidableEq

/-! ## Observable events (console output + call instrumentation) -/

inductive LogEvent where
  /-- Instrumentation: `fetchTweetsFromApify` was actually entered for this
  username (line 215). -/
  | apifyInvoked (username : String)
  | unexpectedApifyFormat
  | noTweets (username : String)
  | tweetsFound (username : String)
  | tweetError (username : String) (msg : String)
  | skipNoCreds (source : String)
  | rateLimited (source : String)
  | scrapeError (source : String) (msg : String)
  | missingStoriesKey (source : String)
  | foundStories (source : String) (n : Nat)
  | skippedSummaryNotice
  | combinedStories (l : List Story)
deriving DecidableEq

/-! ## Social backend adapter (`fetchTweetsFromApify`, lines 134–181) -/

/-- `fetchTweetsFromApify`: `.error` models an exception escaping the
function (network failure, or the explicit throw on a non-ok response);
`.ok` carries the warning events emitted plus the returned stories. -/
def fetchTweetsFromApify (cfg : Config) (beh : FetchOutcome)
    (username : String) : Except String (List LogEvent × List Story) :=
  if !cfg.hasApifyCredentials then Except.ok ([], [])
  else
    match beh with
    | FetchOutcome.networkError msg => Except.error msg
    | FetchOutcome.httpError status statusText body =>
      Except.error ("Apify request failed with " ++ natToStr status ++ " "
        ++ statusText ++ ": " ++ body)
    | FetchOutcome.success payload =>
      match payload with
      | ApifyPayload.nonArray =>
        Except.ok ([LogEvent.unexpectedApifyFormat], [])
      | ApifyPayload.arrayOf items | ApifyPayload.nested items =>
        Except.ok ([],
          (mapApifyItemsToStories items cfg.fallbackDateIso).take
            cfg.apifyMaxItems)

/-! ## Aggregator (`scrapeSources`, lines 187–296) -/

/-- Mutable state of the driving loop. -/
structure ScrapeState where
  /-- `combinedText.stories`. -/
  stories : List Story
  /-- `processedTwitterUsernames` (a `Set<string>` as a list). -/
  processed : List String
  /-- `sawTwitterSource`. -/
  sawTwitter : Bool
  /-- Console/instrumentation trace so far. -/
  trace : List LogEvent
deriving DecidableEq

def initialState : ScrapeState := ⟨[], [], false, []⟩

/-- JS truthiness of the `string | null` username. -/
def jsTruthy (o : Option String) : Bool :=
  match o with
  | some u => !(u == "")
  | none => false

/-- The `try`-block of the generic path (lines 260–278): `.error` models a
thrown/rethrown error reaching the `catch`. -/
def genericTryBody (beh : ExtractOutcome) (source : String) :
    Except JsError (List LogEvent × List Story) :=
  match beh with
  | ExtractOutcome.thrown e => Except.error e
  | ExtractOutcome.failure err =>
    Except.error ⟨none, "Failed to scrape: " ++ err⟩
  | ExtractOutcome.missingStories =>
    Except.ok ([LogEvent.missingStoriesKey source], [])
  | ExtractOutcome.stories l =>
    Except.ok ([LogEvent.foundStories source l.length], l)

/-- The generic (Firecrawl) path for one source, lines 236–285. -/
def genericPath (cfg : Config) (beh : BackendBehavior) (source : String)
    (st : ScrapeState) : Except String ScrapeState :=
  if !useScrape then Except.ok st
  else
    match genericTryBody beh.generic source with
    | Except.error e =>
      if e.statusCode = some 429 then
        Except.ok { st with trace := st.trace ++ [LogEvent.rateLimited source] }
      else
        Except.ok { st with
          trace := st.trace ++ [LogEvent.scrapeError source e.message] }
    | Except.ok (evs, stories) =>
      Except.ok { st with trace := st.trace ++ evs,
                          stories := st.stories ++ stories }

/-- Input element shape: `{ identifier: string }`. -/
structure SourceObj where
  identifier : String
deriving DecidableEq

/-- One iteration of the `for (const sourceObj of sources)` loop
(lines 200–286). -/
def processSource (cfg : Config) (beh : BackendBehavior) (src : SourceObj)
    (st : ScrapeState) : Except String ScrapeState :=
  let source := src.identifier
  match extractTwitterUsername source with
  | some u =>
    if u = "" then
      -- a falsy username behaves like no username in every guard
      genericPath cfg beh source st
    else
      let st := { st with sawTwitter := true }
      if useTwitter cfg then
        let normalizedUsername := strToLower u
        if normalizedUsername ∈ st.processed then Except.ok st
        else
          let st := { st with processed := normalizedUsername :: st.processed,
                              trace := st.trace ++ [LogEvent.apifyInvoked u] }
          match fetchTweetsFromApify cfg beh.social u with
          | Except.error msg =>
            Except.ok { st with
              trace := st.trace ++ [LogEvent.tweetError u msg] }
          | Except.ok (evs, stories) =>
            if stories.length = 0 then
              Except.ok { st with
                trace := st.trace ++ evs ++ [LogEvent.noTweets u] }
            else
              Except.ok { st with
                trace := st.trace ++ evs ++ [LogEvent.tweetsFound u],
                stories := st.stories ++ stories }
      else
        Except.ok { st with trace := st.trace ++ [LogEvent.skipNoCreds source] }
  | none => genericPath cfg beh source st

/-- The source loop; the oracle is indexed by source position. -/
def processSources (cfg : Config) (oracle : Nat → BackendBehavior) :
    Nat → List SourceObj → ScrapeState → Except String ScrapeState
  | _, [], st => Except.ok st
  | i, src :: rest, st =>
    match processSource cfg (oracle i) src st with
    | Except.error e => Except.error e
    | Except.ok st₁ => processSources cfg oracle (i + 1) rest st₁

/-- `scrapeSources` with its full observable state (lines 187–296):
run the loop, emit the one-time skip notice (lines 288–292), emit the
final combined log (line 294). -/
def scrapeSourcesRun (cfg : Config) (oracle : Nat → BackendBehavior)
    (sources : List SourceObj) : Except String ScrapeState :=
  match processSources cfg oracle 0 sources initialState with
  | Except.error e => Except.error e
  | Except.ok st =>
    let st := if !useTwitter cfg && st.sawTwitter then
        { st with trace := st.trace ++ [LogEvent.skippedSummaryNotice] }
      else st
    Except.ok { st with
      trace := st.trace ++ [LogEvent.combinedStories st.stories] }

/-- `scrapeSources`: the returned promise value. -/
def scrapeSources (cfg : Config) (oracle : Nat → BackendBehavior)
    (sources : List SourceObj) : Except String (List Story) :=
  (scrapeSourcesRun cfg oracle sources).map ScrapeState.stories

/-! ## Observability measures -/

/-- Does this event record an actual social-backend call for the
(case-normalized) username `nu`? -/
def isInvocationFor (nu : String) : LogEvent → Bool
  | LogEvent.apifyInvoked u => strToLower u == nu
  | _ => false

/-- Number of social-backend calls for `nu` recorded in a trace. -/
def apifyInvocations (tr : List LogEvent) (nu : String) : Nat :=
  (tr.filter (isInvocationFor nu)).length

def isSummaryNotice : LogEvent → Bool
  | LogEvent.skippedSummaryNotice => true
  | _ => false

/-- Number of one-time skip summary notices in a trace. -/
def summaryNoticeCount (tr : List LogEvent) : Nat :=
  (tr.filter isSummaryNotice).length

/-- 1 while `nu` has not yet been recorded as processed, 0 afterwards. -/
def uSlack (st : ScrapeState) (nu : String) : Nat :=
  if nu ∈ st.processed then 0 else 1

@[simp] theorem apifyInvocations_append (a b : List LogEvent) (nu : String) :
    apifyInvocations (a ++ b) nu =
      apifyInvocations a nu + apifyInvocations b nu := by
  simp [apifyInvocations, List.filter_append]

@[simp] theorem summaryNoticeCount_append (a b : List LogEvent) :
    summaryNoticeCount (a ++ b) =
      summaryNoticeCount a + summaryNoticeCount b := by
  simp [summaryNoticeCount, List.filter_append]

/-! ## Basic facts about the backend adapters -/

theorem fetchTweetsFromApify_ok (cfg : Config) (beh : FetchOutcome)
    (u : String) (evs : List LogEvent) (stories : List Story)
    (h : fetchTweetsFromApify cfg beh u = Except.ok (evs, stories)) :
    (∀ nu, apifyInvocations evs nu = 0) ∧ summaryNoticeCount evs = 0 ∧
      stories.length ≤ cfg.apifyMaxItems := by
  unfold fetchTweetsFromApify at h
  split at h
  · obtain ⟨rfl, rfl⟩ := by simpa using h
    simp [apifyInvocations, summaryNoticeCount]
  · cases beh with
    | networkError msg => simp at h
    | httpError status statusText body => simp at h
    | success payload =>
      cases payload with
      | nonArray =>
        obtain ⟨rfl, rfl⟩ := by simpa using h
        simp [apifyInvocations, summaryNoticeCount, isInvocationFor,
          isSummaryNotice]
      | arrayOf items =>
        obtain ⟨rfl, rfl⟩ := by simpa using h
        simp [apifyInvocations, summaryNoticeCount]
      | nested items =>
        obtain ⟨rfl, rfl⟩ := by simpa using h
        simp [apifyInvocations, summaryNoticeCount]

theorem genericPath_spec (cfg : Config) (beh : BackendBehavior)
    (source : String) (st st' : ScrapeState)
    (h : genericPath cfg beh source st = Except.ok st') :
    ∃ evs extra, st' = { st with trace := st.trace ++ evs,
                                 stories := st.stories ++ extra } ∧
      (∀ nu, apifyInvocations evs nu = 0) ∧ summaryNoticeCount evs = 0 := by
  cases hg : beh.generic with
  | thrown e =>
    simp only [genericPath, genericTryBody, hg, useScrape, Bool.not_true,
      Bool.false_eq_true, if_false] at h
    by_cases hsc : e.statusCode = some 429
    · rw [if_pos hsc] at h
      obtain rfl := Except.ok.inj h
      refine ⟨[LogEvent.rateLimited source], [], by simp, ?_, ?_⟩ <;>
        simp [apifyInvocations, summaryNoticeCount, isInvocationFor,
          isSummaryNotice]
    · rw [if_neg hsc] at h
      obtain rfl := Except.ok.inj h
      refine ⟨[LogEvent.scrapeError source e.message], [], by simp, ?_, ?_⟩ <;>
        simp [apifyInvocations, summaryNoticeCount, isInvocationFor,
          isSummaryNotice]
  | failure err =>
    simp only [genericPath, genericTryBody, hg, useScrape, Bool.not_true,
      Bool.false_eq_true, if_false, Option.some.injEq, reduceCtorEq,
      if_neg] at h
    obtain rfl := (Except.ok.inj h).symm
    refine ⟨[LogEvent.scrapeError source ("Failed to scrape: " ++ err)], [],
      by simp, ?_, ?_⟩ <;>
      simp [apifyInvocations, summaryNoticeCount, isInvocationFor,
        isSummaryNotice]
  | missingStories =>
    simp only [genericPath, genericTryBody, hg, useScrape, Bool.not_true,
      Bool.false_eq_true, if_false] at h
    obtain rfl := Except.ok.inj h
    refine ⟨[LogEvent.missingStoriesKey source], [], by simp, ?_, ?_⟩ <;>
      simp [apifyInvocations, summaryNoticeCount, isInvocationFor,
        isSummaryNotice]
  | stories l =>
    simp only [genericPath, genericTryBody, hg, useScrape, Bool.not_true,
      Bool.false_eq_true, if_false] at h
    obtain rfl := Except.ok.inj h
    refine ⟨[LogEvent.foundStories source l.length], l, rfl, ?_, ?_⟩ <;>
      simp [apifyInvocations, summaryNoticeCount, isInvocationFor,
        isSummaryNotice]

/-! ## Totality of the loop: every backend behaviour is handled -/

theorem genericPath_ok (cfg : Config) (beh : BackendBehavior)
    (source : String) (st : ScrapeState) :
    ∃ st', genericPath cfg beh source st = Except.ok st' := by
  cases hg : beh.generic <;>
    simp only [genericPath, genericTryBody, hg, useScrape, Bool.not_true,
      Bool.false_eq_true, if_false] <;>
    first
      | (split <;> exact ⟨_, rfl⟩)
      | exact ⟨_, rfl⟩

theorem fetchTweetsFromApify_total (cfg : Config) (beh : FetchOutcome)
    (u : String) :
    (∃ e, fetchTweetsFromApify cfg beh u = Except.error e) ∨
    (∃ evs stories,
      fetchTweetsFromApify cfg beh u = Except.ok (evs, stories)) := by
  unfold fetchTweetsFromApify
  split
  · exact Or.inr ⟨_, _, rfl⟩
  · cases beh with
    | networkError msg => exact Or.inl ⟨_, rfl⟩
    | httpError status statusText body => exact Or.inl ⟨_, rfl⟩
    | success payload => cases payload <;> exact Or.inr ⟨_, _, rfl⟩

theorem processSource_ok (cfg : Config) (beh : BackendBehavior)
    (src : SourceObj) (st : ScrapeState) :
    ∃ st', processSource cfg beh src st = Except.ok st' := by
  cases he : extractTwitterUsername src.identifier with
  | none =>
    simp only [processSource, he]
    exact genericPath_ok cfg beh src.identifier st
  | some u =>
    simp only [processSource, he]
    by_cases hu : u = ""
    · rw [if_pos hu]
      exact genericPath_ok cfg beh src.identifier st
    · rw [if_neg hu]
      by_cases htw : useTwitter cfg
      · simp only [htw, if_true]
        split
        · exact ⟨_, rfl⟩
        · rcases fetchTweetsFromApify_total cfg beh.social u with
            ⟨e, hf⟩ | ⟨evs, stories, hf⟩
          · simp only [hf]; exact ⟨_, rfl⟩
          · simp only [hf]
            by_cases hl : stories.length = 0
            · rw [if_pos hl]; exact ⟨_, rfl⟩
            · rw [if_neg hl]; exact ⟨_, rfl⟩
      · simp only [htw, if_false, Bool.false_eq_true]
        exact ⟨_, rfl⟩

theorem processSources_ok (cfg : Config) (oracle : Nat → BackendBehavior) :
    ∀ (sources : List SourceObj) (i : Nat) (st : ScrapeState),
      ∃ st', processSources cfg oracle i sources st = Except.ok st' := by
  intro sources
  induction sources with
  | nil => exact fun i st => ⟨st, rfl⟩
  | cons src rest ih =>
    intro i st
    obtain ⟨st₁, h₁⟩ := processSource_ok cfg (oracle i) src st
    obtain ⟨st₂, h₂⟩ := ih (i + 1) st₁
    exact ⟨st₂, by simp [processSources, h₁, h₂]⟩

theorem scrapeSourcesRun_ok (cfg : Config) (oracle : Nat → BackendBehavior)
    (sources : List SourceObj) :
    ∃ st, scrapeSourcesRun cfg oracle sources = Except.ok st := by
  obtain ⟨st, h⟩ := processSources_ok cfg oracle sources 0 initialState
  unfold scrapeSourcesRun
  rw [h]
  exact ⟨_, rfl⟩

/-! ## Loop invariants -/

@[simp] theorem apifyInvocations_nil (nu : String) :
    apifyInvocations [] nu = 0 := rfl

@[simp] theorem apifyInvocations_cons (e : LogEvent) (tr : List LogEvent)
    (nu : String) :
    apifyInvocations (e :: tr) nu =
      (if isInvocationFor nu e then 1 else 0) + apifyInvocations tr nu := by
  simp only [apifyInvocations, List.filter_cons]
  split <;> simp [Nat.add_comm]

@[simp] theorem summaryNoticeCount_nil : summaryNoticeCount [] = 0 := rfl

@[simp] theorem summaryNoticeCount_cons (e : LogEvent) (tr : List LogEvent) :
    summaryNoticeCount (e :: tr) =
      (if isSummaryNotice e then 1 else 0) + summaryNoticeCount tr := by
  simp only [summaryNoticeCount, List.filter_cons]
  split <;> simp [Nat.add_comm]

/-- Effect of one loop iteration on the observables: the per-username
invocation budget never increases, no summary notice is emitted inside the
loop, and `sawTwitter` is set exactly by a truthy extracted username. -/
theorem processSource_spec (cfg : Config) (beh : BackendBehavior)
    (src : SourceObj) (st st' : ScrapeState) (nu : String)
    (h : processSource cfg beh src st = Except.ok st') :
    apifyInvocations st'.trace nu + uSlack st' nu ≤
      apifyInvocations st.trace nu + uSlack st nu ∧
    summaryNoticeCount st'.trace = summaryNoticeCount st.trace ∧
    st'.sawTwitter
      = (st.sawTwitter || jsTruthy (extractTwitterUsername src.identifier)) := by
  cases he : extractTwitterUsername src.identifier with
  | none =>
    simp only [processSource, he] at h
    obtain ⟨evs, extra, rfl, hinv, hsum⟩ := genericPath_spec _ _ _ _ _ h
    simp [uSlack, hinv, hsum, jsTruthy]
  | some u =>
    simp only [processSource, he] at h
    by_cases hu : u = ""
    · rw [if_pos hu] at h
      obtain ⟨evs, extra, rfl, hinv, hsum⟩ := genericPath_spec _ _ _ _ _ h
      simp [uSlack, hinv, hsum, jsTruthy, hu]
    · rw [if_neg hu] at h
      by_cases htw : useTwitter cfg
      · simp only [htw, if_true] at h
        by_cases hmem : strToLower u ∈ st.processed
        · rw [if_pos hmem] at h
          obtain rfl := (Except.ok.inj h).symm
          simp [uSlack, jsTruthy, hu]
        · rw [if_neg hmem] at h
          have hslack : ∀ tail : List LogEvent,
              (∀ m, apifyInvocations tail m = 0) →
              apifyInvocations
                  (st.trace ++ [LogEvent.apifyInvoked u] ++ tail) nu +
                uSlack ⟨st.stories, strToLower u :: st.processed,
                  true, []⟩ nu ≤
              apifyInvocations st.trace nu + uSlack st nu := by
            intro tail htail
            by_cases hnu : strToLower u = nu
            · have hnu' : nu ∉ st.processed := hnu ▸ hmem
              simp [isInvocationFor, hnu, htail, uSlack, hnu']
            · simp only [apifyInvocations_append, apifyInvocations_cons,
                apifyInvocations_nil, isInvocationFor, htail, uSlack,
                List.mem_cons]
              have : (strToLower u == nu) = false := by
                simpa using hnu
              simp [this, hnu]
              split_ifs <;> first | omega | tauto
          rcases fetchTweetsFromApify_total cfg beh.social u with
            ⟨e, hf⟩ | ⟨evs, stories, hf⟩
          · simp only [hf] at h
            obtain rfl := (Except.ok.inj h).symm
            refine ⟨?_, ?_, ?_⟩
            · have := hslack [LogEvent.tweetError u e]
                (by simp [isInvocationFor])
              simpa [uSlack] using this
            · simp [isSummaryNotice]
            · simp [jsTruthy, hu]
          · simp only [hf] at h
            obtain ⟨hinv0, hsum0, _⟩ := fetchTweetsFromApify_ok _ _ _ _ _ hf
            by_cases hl : stories.length = 0
            · rw [if_pos hl] at h
              obtain rfl := (Except.ok.inj h).symm
              refine ⟨?_, ?_, ?_⟩
              · have := hslack (evs ++ [LogEvent.noTweets u])
                  (by intro m; simp [hinv0, isInvocationFor])
                simpa [uSlack, List.append_assoc] using this
              · simp [isSummaryNotice, hsum0]
              · simp [jsTruthy, hu]
            · rw [if_neg hl] at h
              obtain rfl := (Except.ok.inj h).symm
              refine ⟨?_, ?_, ?_⟩
              · have := hslack (evs ++ [LogEvent.tweetsFound u])
                  (by intro m; simp [hinv0, isInvocationFor])
                simpa [uSlack, List.append_assoc] using this
              · simp [isSummaryNotice, hsum0]
              · simp [jsTruthy, hu]
      · simp only [htw, if_false, Bool.false_eq_true] at h
        obtain rfl := (Except.ok.inj h).symm
        simp [uSlack, jsTruthy, hu, isInvocationFor, isSummaryNotice]

theorem processSources_spec (cfg : Config) (oracle : Nat → BackendBehavior) :
    ∀ (sources : List SourceObj) (i : Nat) (st st' : ScrapeState)
      (nu : String),
      processSources cfg oracle i sources st = Except.ok st' →
      apifyInvocations st'.trace nu + uSlack st' nu ≤
        apifyInvocations st.trace nu + uSlack st nu ∧
      summaryNoticeCount st'.trace = summaryNoticeCount st.trace ∧
      st'.sawTwitter = (st.sawTwitter || sources.any
        (fun s => jsTruthy (extractTwitterUsername s.identifier))) := by
  intro sources
  induction sources with
  | nil =>
    intro i st st' nu h
    simp only [processSources] at h
    obtain rfl := Except.ok.inj h
    simp
  | cons src rest ih =>
    intro i st st' nu h
    simp only [processSources] at h
    cases h₁ : processSource cfg (oracle i) src st with
    | error e => rw [h₁] at h; exact absurd h (by simp)
    | ok st₁ =>
      rw [h₁] at h
      obtain ⟨ha, hb, hc⟩ := processSource_spec _ _ _ _ _ nu h₁
      obtain ⟨ha', hb', hc'⟩ := ih (i + 1) st₁ st' nu h
      refine ⟨le_trans ha' ha, hb'.trans hb, ?_⟩
      rw [hc', hc]
      simp [Bool.or_assoc]

/-- Condition under which the one-time summary notice is due
(lines 288–292, with `sawTwitterSource` expressed over the input list). -/
def summaryCond (cfg : Config) (sources : List SourceObj) : Bool :=
  !useTwitter cfg &&
    sources.any (fun s => jsTruthy (extractTwitterUsername s.identifier))

/-- The observables of a whole run: at most one backend call per
case-normalized username, and the summary notice appears exactly when due,
exactly once, after every per-source event. -/
theorem scrapeSourcesRun_spec (cfg : Config)
    (oracle : Nat → BackendBehavior) (sources : List SourceObj)
    (st : ScrapeState)
    (h : scrapeSourcesRun cfg oracle sources = Except.ok st) :
    (∀ nu, apifyInvocations st.trace nu ≤ 1) ∧
    summaryNoticeCount st.trace
      = (if summaryCond cfg sources then 1 else 0) ∧
    ∃ pre, st.trace = pre ++
        (if summaryCond cfg sources
          then [LogEvent.skippedSummaryNotice] else []) ++
        [LogEvent.combinedStories st.stories] ∧
      summaryNoticeCount pre = 0 := by
  unfold scrapeSourcesRun at h
  cases hp : processSources cfg oracle 0 sources initialState with
  | error e => rw [hp] at h; exact absurd h (by simp)
  | ok st₁ =>
    simp only [hp] at h
    have hspec := fun nu => processSources_spec cfg oracle sources 0
      initialState st₁ nu hp
    have hsaw : st₁.sawTwitter = sources.any
        (fun s => jsTruthy (extractTwitterUsername s.identifier)) := by
      simpa [initialState] using (hspec "").2.2
    have hsum : summaryNoticeCount st₁.trace = 0 := by
      simpa [initialState] using (hspec "").2.1
    have hcount : ∀ nu, apifyInvocations st₁.trace nu ≤ 1 := by
      intro nu
      have := (hspec nu).1
      simp only [initialState, apifyInvocations_nil, uSlack] at this
      split_ifs at this <;> omega
    have hcond : (!useTwitter cfg && st₁.sawTwitter)
        = summaryCond cfg sources := by
      rw [summaryCond, hsaw]
    by_cases hc : (!useTwitter cfg && st₁.sawTwitter) = true
    · rw [if_pos hc] at h
      obtain rfl := (Except.ok.inj h).symm
      rw [← hcond]
      refine ⟨?_, ?_, st₁.trace, ?_, hsum⟩
      · intro nu
        simpa [isInvocationFor] using hcount nu
      · simp [hc, hsum, isSummaryNotice]
      · simp [hc]
    · rw [if_neg hc] at h
      obtain rfl := (Except.ok.inj h).symm
      rw [← hcond]
      refine ⟨?_, ?_, st₁.trace, ?_, hsum⟩
      · intro nu
        simpa [isInvocationFor] using hcount nu
      · simp [hc, hsum, isSummaryNotice]
      · simp [hc]

/-! ## Properties of the dedup map -/

theorem mapSet_keys (m : List (String × Story)) (k : String) (v : Story) :
    (mapSet m k v).map Prod.fst =
      if k ∈ m.map Prod.fst then m.map Prod.fst
      else m.map Prod.fst ++ [k] := by
  induction m with
  | nil => simp [mapSet]
  | cons p rest ih =>
    obtain ⟨k₀, v₀⟩ := p
    by_cases hk : k₀ = k
    · subst hk
      simp [mapSet]
    · simp only [mapSet, if_neg hk, List.map_cons, ih, List.mem_cons]
      by_cases hmem : k ∈ rest.map Prod.fst
      · simp [hmem, Ne.symm hk]
      · simp [hmem, Ne.symm hk]

theorem mapSet_nodupKeys (m : List (String × Story)) (k : String) (v : Story)
    (h : (m.map Prod.fst).Nodup) :
    ((mapSet m k v).map Prod.fst).Nodup := by
  rw [mapSet_keys]
  split_ifs with hmem
  · exact h
  · rw [List.nodup_append_comm, List.singleton_append, List.nodup_cons]
    exact ⟨hmem, h⟩

theorem mapSet_linkInv (m : List (String × Story)) (k : String) (v : Story)
    (hm : ∀ p ∈ m, Story.link p.2 = p.1) (hv : v.link = k) :
    ∀ p ∈ mapSet m k v, Story.link p.2 = p.1 := by
  induction m with
  | nil =>
    intro p hp
    simp only [mapSet, List.mem_singleton] at hp
    subst hp
    exact hv
  | cons q rest ih =>
    obtain ⟨k₀, v₀⟩ := q
    intro p hp
    by_cases hk : k₀ = k
    · subst hk
      simp only [mapSet, if_pos rfl] at hp
      rcases List.mem_cons.mp hp with rfl | hp'
      · exact hv
      · exact hm p (List.mem_cons_of_mem _ hp')
    · simp only [mapSet, if_neg hk] at hp
      rcases List.mem_cons.mp hp with rfl | hp'
      · exact hm _ (List.mem_cons_self _ _)
      · exact ih (fun q hq => hm q (List.mem_cons_of_mem _ hq)) p hp'

theorem mapGet_mapSet (m : List (String × Story)) (k k' : String)
    (v : Story) :
    mapGet (mapSet m k v) k' = if k = k' then some v else mapGet m k' := by
  induction m with
  | nil =>
    simp [mapSet, mapGet]
  | cons p rest ih =>
    obtain ⟨k₀, v₀⟩ := p
    by_cases hk : k₀ = k
    · subst hk
      by_cases hk' : k₀ = k'
      · subst hk'
        simp [mapSet, mapGet]
      · simp [mapSet, mapGet, hk']
    · by_cases hk' : k₀ = k'
      · subst hk'
        have : ¬ k = k₀ := fun hh => hk hh.symm
        simp [mapSet, mapGet, hk, this]
      · simp [mapSet, mapGet, hk, hk', ih]

/-- The fold of `Map.set` over a list of entries, seen through `Map.get`:
the last entry with the queried key wins. -/
theorem mapGet_foldl (ps : List (String × Story)) :
    ∀ (m : List (String × Story)) (l : String),
      mapGet (ps.foldl (fun m p => mapSet m p.1 p.2) m) l =
        match (ps.reverse.find? (fun p => p.1 == l)) with
        | some q => some q.2
        | none => mapGet m l := by
  induction ps with
  | nil => intro m l; simp
  | cons p rest ih =>
    intro m l
    rw [List.foldl_cons, ih]
    rw [List.reverse_cons, List.find?_append]
    cases hfr : rest.reverse.find? (fun p => p.1 == l) with
    | some q => simp [hfr]
    | none =>
      simp only [hfr, Option.none_orElse]
      by_cases hp : p.1 = l
      · simp [List.find?, hp, mapGet_mapSet]
      · have : (p.1 == l) = false := by simpa using hp
        simp [List.find?, this, mapGet_mapSet, hp]

/-- Values of a key-unique, link-consistent map, filtered by link. -/
theorem valuesFilter (m : List (String × Story)) (l : String)
    (hnd : (m.map Prod.fst).Nodup)
    (hinv : ∀ p ∈ m, Story.link p.2 = p.1) :
    (m.map Prod.snd).filter (fun s => s.link == l) = (mapGet m l).toList := by
  induction m with
  | nil => simp [mapGet]
  | cons p rest ih =>
    obtain ⟨k₀, v₀⟩ := p
    have hv₀ : v₀.link = k₀ := hinv _ (List.mem_cons_self _ _)
    have hnd' : (rest.map Prod.fst).Nodup := (List.nodup_cons.mp hnd).2
    have hk₀ : k₀ ∉ rest.map Prod.fst := (List.nodup_cons.mp hnd).1
    have hinv' : ∀ p ∈ rest, Story.link p.2 = p.1 :=
      fun p hp => hinv p (List.mem_cons_of_mem _ hp)
    by_cases hk : k₀ = l
    · subst hk
      have hrest : (rest.map Prod.snd).filter (fun s => s.link == k₀) = [] := by
        rw [List.filter_eq_nil]
        intro s hs
        obtain ⟨p, hp, rfl⟩ := List.mem_map.mp hs
        have : Story.link p.2 = p.1 := hinv' p hp
        have hvne : p.1 ≠ k₀ := by
          intro hh
          exact hk₀ (hh ▸ List.mem_map_of_mem Prod.fst hp)
        simp [this, hvne]
      simp [mapGet, List.filter_cons, hv₀, hrest]
    · have : (v₀.link == l) = false := by simp [hv₀, hk]
      simp [mapGet, List.filter_cons, this, hk, ih hnd' hinv']

/-- Every entry produced by `normalizeItem` keys the story by its own link. -/
theorem normalizeItem_link (item : ApifyTweetItem) (fb : String)
    (p : String × Story) (h : normalizeItem item fb = some p) :
    Story.link p.2 = p.1 := by
  unfold normalizeItem at h
  by_cases h1 : skipByType item = true
  · rw [if_pos h1] at h; exact absurd h (by simp)
  · rw [if_neg h1] at h
    by_cases h2 : computeHeadline item = ""
    · rw [if_pos h2] at h; exact absurd h (by simp)
    · rw [if_neg h2] at h
      cases hcl : computeLink item with
      | none => simp only [hcl] at h; exact absurd h (by simp)
      | some link =>
        simp only [hcl] at h
        obtain rfl := Option.some.inj h
        rfl

theorem normalizedEntries_linkInv (items : List ApifyTweetItem) (fb : String) :
    ∀ p ∈ normalizedEntries items fb, Story.link p.2 = p.1 := by
  intro p hp
  obtain ⟨item, _, hn⟩ := List.mem_filterMap.mp hp
  exact normalizeItem_link item fb p hn

/-- The dedup map built by the loop has pairwise-distinct keys and stores
each story under its own link. -/
theorem buildMap_invariants (ps : List (String × Story)) :
    ∀ m : List (String × Story),
      (m.map Prod.fst).Nodup → (∀ p ∈ m, Story.link p.2 = p.1) →
      (∀ p ∈ ps, Story.link p.2 = p.1) →
      ((ps.foldl (fun m p => mapSet m p.1 p.2) m).map Prod.fst).Nodup ∧
      (∀ q ∈ ps.foldl (fun m p => mapSet m p.1 p.2) m,
        Story.link q.2 = q.1) := by
  induction ps with
  | nil => exact fun m hnd hinv _ => ⟨hnd, hinv⟩
  | cons p rest ih =>
    intro m hnd hinv hps
    have hp : Story.link p.2 = p.1 := hps p (List.mem_cons_self _ _)
    have hps' : ∀ q ∈ rest, Story.link q.2 = q.1 :=
      fun q hq => hps q (List.mem_cons_of_mem _ hq)
    simp only [List.foldl_cons]
    exact ih (mapSet m p.1 p.2) (mapSet_nodupKeys m p.1 p.2 hnd)
      (mapSet_linkInv m p.1 p.2 hinv hp) hps'

/-- Within one `mapApifyItemsToStories` result no two stories share a
link. -/
theorem mapApify_links_nodup (items : List ApifyTweetItem) (fb : String) :
    ((mapApifyItemsToStories items fb).map Story.link).Nodup := by
  unfold mapApifyItemsToStories
  obtain ⟨hnd, hinv⟩ := buildMap_invariants (normalizedEntries items fb) []
    (by simp) (by simp) (normalizedEntries_linkInv items fb)
  rw [List.map_map]
  have : ((normalizedEntries items fb).foldl
        (fun m p => mapSet m p.1 p.2) []).map (Story.link ∘ Prod.snd)
      = ((normalizedEntries items fb).foldl
        (fun m p => mapSet m p.1 p.2) []).map Prod.fst :=
    List.map_congr_left (fun p hp => hinv p hp)
  rw [this]
  exact hnd

/-! ## Claim theorems -/

/-- **C1.** For every input source list and every behaviour of the two
backends — including every backend call failing with a thrown error
(`networkError`/`thrown`), a non-success result (`httpError`/`failure`),
or a malformed payload (`nonArray`/`missingStories`) — `scrapeSources`
returns a story list normally; no exception raised while processing an
individual source propagates out of the aggregator. -/
theorem scrapeSources_total_resilience (cfg : Config)
    (oracle : Nat → BackendBehavior) (sources : List SourceObj) :
    ∃ l, scrapeSources cfg oracle sources = Except.ok l := by
  obtain ⟨st, h⟩ := scrapeSourcesRun_ok cfg oracle sources
  exact ⟨st.stories, by simp [scrapeSources, h, Except.map]⟩

def c2Story : Story := ⟨"h", "https://dup", "2024-01-01"⟩

def c2Oracle : Nat → BackendBehavior :=
  fun _ => ⟨FetchOutcome.success (ApifyPayload.arrayOf []),
            ExtractOutcome.stories [c2Story]⟩

def c2Cfg : Config := ⟨false, none, "fb"⟩

def c2Sources : List SourceObj :=
  [⟨"https://example.com/a"⟩, ⟨"https://example.com/b"⟩]

/-- **C2 counterexample.** Two generic-page sources whose backend responses
contain the same link produce a returned list with two stories sharing one
link: the claimed run-wide uniqueness of `link` fails. -/
theorem dedup_across_sources_cex :
    scrapeSources c2Cfg c2Oracle c2Sources
      = Except.ok [c2Story, c2Story] ∧
    ¬ (([c2Story, c2Story]).map Story.link).Nodup := by
  exact ⟨by rfl, by decide⟩

/-- **C2 amended.** Link uniqueness holds per social-backend call: the
story list returned by one `fetchTweetsFromApify` call never contains two
stories with the same link.  Across sources — in particular across
generic-page sources — the aggregator appends without deduplication and
duplicate links can occur (see the counterexample). -/
theorem social_call_links_nodup (cfg : Config) (beh : FetchOutcome)
    (u : String) (evs : List LogEvent) (stories : List Story)
    (h : fetchTweetsFromApify cfg beh u = Except.ok (evs, stories)) :
    (stories.map Story.link).Nodup := by
  unfold fetchTweetsFromApify at h
  split at h
  · obtain ⟨rfl, rfl⟩ := by simpa using h
    simp
  · cases beh with
    | networkError msg => simp at h
    | httpError s t b => simp at h
    | success payload =>
      cases payload with
      | nonArray =>
        obtain ⟨rfl, rfl⟩ := by simpa using h
        simp
      | arrayOf items =>
        obtain ⟨rfl, rfl⟩ := by simpa using h
        rw [List.map_take]
        exact List.Nodup.sublist (List.take_sublist _ _)
          (mapApify_links_nodup items cfg.fallbackDateIso)
      | nested items =>
        obtain ⟨rfl, rfl⟩ := by simpa using h
        rw [List.map_take]
        exact List.Nodup.sublist (List.take_sublist _ _)
          (mapApify_links_nodup items cfg.fallbackDateIso)

def c2FetchCfg : Config := ⟨true, none, "fb"⟩

def c2ItemA : ApifyTweetItem := { text := some "A", url := some "https://dup" }

def c2ItemB : ApifyTweetItem := { text := some "B", url := some "https://dup" }

/-- Witness for the amended C2: a concrete call whose raw items contain a
duplicated link still returns stories with pairwise-distinct links. -/
theorem social_call_links_nodup_witness :
    (([⟨"B", "https://dup", "fb"⟩] : List Story).map Story.link).Nodup :=
  social_call_links_nodup c2FetchCfg
    (FetchOutcome.success (ApifyPayload.arrayOf [c2ItemA, c2ItemB]))
    "u" [] [⟨"B", "https://dup", "fb"⟩] (by rfl)

/-- **C3.** If at least two raw items of one social-backend call yield the
same computed link `l`, the normalized output contains exactly one story
with link `l`, and it is the one computed from the item occurring last in
iteration order (last-write-wins map semantics). -/
theorem last_write_wins_dedup (items : List ApifyTweetItem) (fb l : String)
    (h2 : 2 ≤ ((normalizedEntries items fb).filter
      (fun p => p.1 == l)).length) :
    ∃ s : Story,
      ((normalizedEntries items fb).reverse.find? (fun p => p.1 == l))
        = some (l, s) ∧
      (mapApifyItemsToStories items fb).filter (fun st => st.link == l)
        = [s] := by
  have hne : (normalizedEntries items fb).filter (fun p => p.1 == l) ≠ [] := by
    intro hh
    rw [hh] at h2
    simp at h2
  have hex : ∃ x ∈ normalizedEntries items fb, (x.1 == l) = true := by
    by_contra hno
    push_neg at hno
    exact hne (List.filter_eq_nil_iff.mpr (by simpa using hno))
  obtain ⟨x, hx, hpx⟩ := hex
  have hsome : ((normalizedEntries items fb).reverse.find?
      (fun p => p.1 == l)).isSome = true := by
    rw [List.find?_isSome]
    exact ⟨x, List.mem_reverse.mpr hx, hpx⟩
  obtain ⟨q, hq⟩ := Option.isSome_iff_exists.mp hsome
  have hql : q.1 = l := by
    have := List.find?_some hq
    simpa using this
  subst hql
  refine ⟨q.2, by simp [hq], ?_⟩
  unfold mapApifyItemsToStories
  obtain ⟨hnd, hinv⟩ := buildMap_invariants (normalizedEntries items fb) []
    (by simp) (by simp) (normalizedEntries_linkInv items fb)
  rw [valuesFilter _ _ hnd hinv, mapGet_foldl, hq]
  simp

def c3ItemA : ApifyTweetItem :=
  { text := some "A", url := some "https://dup",
    createdAt := some "2024-01-01" }

def c3ItemB : ApifyTweetItem :=
  { text := some "B", url := some "https://dup",
    createdAt := some "2024-01-02" }

/-- Witness for C3: with two concrete items computing the same link, the
output carries exactly the story built from the second item. -/
theorem last_write_wins_dedup_witness :
    (mapApifyItemsToStories [c3ItemA, c3ItemB] "fb").filter
      (fun st => st.link == "https://dup")
      = [⟨"B", "https://dup", "2024-01-02T00:00:00.000Z"⟩] := by
  obtain ⟨s, h1, h2⟩ := last_write_wins_dedup [c3ItemA, c3ItemB] "fb"
    "https://dup" (by decide)
  have he : (normalizedEntries [c3ItemA, c3ItemB] "fb").reverse.find?
      (fun p => p.1 == "https://dup")
      = some ("https://dup",
          (⟨"B", "https://dup", "2024-01-02T00:00:00.000Z"⟩ : Story)) := by
    decide
  rw [he] at h1
  obtain ⟨-, hs⟩ := Prod.mk.injEq .. ▸ (Option.some.inj h1)
  rw [h2, ← hs]

/-- The headline and date of a normalized story are the computed
headline/date of its item. -/
theorem normalizeItem_fields (item : ApifyTweetItem) (fb : String)
    (p : String × Story) (h : normalizeItem item fb = some p) :
    p.2.headline = computeHeadline item ∧
    p.2.date_posted = computeDate item fb := by
  unfold normalizeItem at h
  by_cases h1 : skipByType item = true
  · rw [if_pos h1] at h; exact absurd h (by simp)
  · rw [if_neg h1] at h
    by_cases h2 : computeHeadline item = ""
    · rw [if_pos h2] at h; exact absurd h (by simp)
    · rw [if_neg h2] at h
      cases hcl : computeLink item with
      | none => simp only [hcl] at h; exact absurd h (by simp)
      | some link =>
        simp only [hcl] at h
        obtain rfl := Option.some.inj h
        exact ⟨rfl, rfl⟩

def c4Item : ApifyTweetItem :=
  { text := some "hi", url := some "https://a",
    createdAt := some "2024-01-01T00:00:00Z" }

/-- **C4 counterexample.** The claim says a valid ISO date field is carried
*unchanged* into `date_posted`.  The code re-serializes it through
`toISOString`, which always renders milliseconds: for the raw field
`"2024-01-01T00:00:00Z"` the produced story carries
`"2024-01-01T00:00:00.000Z"`, a different string. -/
theorem date_not_preserved_cex :
    c4Item.createdAt = some "2024-01-01T00:00:00Z" ∧
    (jsDateParse "2024-01-01T00:00:00Z").isSome = true ∧
    mapApifyItemsToStories [c4Item] "fb"
      = [⟨"hi", "https://a", "2024-01-01T00:00:00.000Z"⟩] ∧
    "2024-01-01T00:00:00.000Z" ≠ "2024-01-01T00:00:00Z" :=
  ⟨rfl, by decide, by decide, by decide⟩

/-- **C4 amended.** For every raw item whose first present date field
parses as a (modelled) valid ISO-8601 date, the produced story carries the
canonical re-serialization `jsToISOString` of that parsed date in
`date_posted` — the same instant, not necessarily the same string. -/
theorem date_reserialized_canonical (item : ApifyTweetItem) (fb : String)
    (s : String) (d : JsDate) (p : String × Story)
    (hfirst : (item.createdAt <|> item.created_at <|> item.date) = some s)
    (hparse : jsDateParse s = some d)
    (hnorm : normalizeItem item fb = some p) :
    p.2.date_posted = jsToISOString d := by
  have h0 : jsDateParse "" = none := rfl
  have hs : s ≠ "" := by
    intro he
    rw [he, h0] at hparse
    cases hparse
  have hcd : computeDate item fb = jsToISOString d := by
    unfold computeDate
    simp only [hfirst]
    rw [if_neg hs]
    simp only [hparse]
  rw [(normalizeItem_fields item fb p hnorm).2, hcd]

/-- Witness for the amended C4: concrete item, concrete parsed date. -/
theorem date_reserialized_canonical_witness :
    Story.date_posted ⟨"hi", "https://a", "2024-01-01T00:00:00.000Z"⟩
      = jsToISOString ⟨2024, 1, 1, 0, 0, 0, 0⟩ :=
  date_reserialized_canonical c4Item "fb" "2024-01-01T00:00:00Z"
    ⟨2024, 1, 1, 0, 0, 0, 0⟩
    ("https://a", ⟨"hi", "https://a", "2024-01-01T00:00:00.000Z"⟩)
    rfl (by decide) (by decide)

/-- **C6.** A source string that parses as a URL with a social hostname
but whose first non-empty path segment is a reserved keyword (`i`,
`hashtag`, `search` — status-index, hashtag and search paths) is classified
"not social", and the loop handles it on the generic page path. -/
theorem reserved_segment_generic (source : String) (u : UrlParts)
    (seg : List Char) (rest : List (List Char))
    (hp : parseUrl (withScheme source) = some u)
    (hhost : (strEndsWith (strToLower u.hostname) "x.com"
      || strEndsWith (strToLower u.hostname) "twitter.com") = true)
    (hseg : (splitOnChar '/' u.pathname.data).filter
      (fun s => !s.isEmpty) = seg :: rest)
    (hres : strToLower (String.mk seg)
      ∈ (["i", "hashtag", "search"] : List String)) :
    extractTwitterUsername source = none ∧
    ∀ (cfg : Config) (beh : BackendBehavior) (st : ScrapeState),
      processSource cfg beh ⟨source⟩ st = genericPath cfg beh source st := by
  have hex : extractTwitterUsername source = none := by
    unfold extractTwitterUsername
    simp only [hp]
    rw [if_pos hhost]
    simp only [hseg]
    rw [if_pos hres]
  exact ⟨hex, fun cfg beh st => by simp only [processSource, hex]⟩

/-- Witness for C6: a concrete hashtag URL on the social domain. -/
theorem reserved_segment_generic_witness :
    extractTwitterUsername "https://x.com/hashtag/ai" = none ∧
    ∀ (cfg : Config) (beh : BackendBehavior) (st : ScrapeState),
      processSource cfg beh ⟨"https://x.com/hashtag/ai"⟩ st
        = genericPath cfg beh "https://x.com/hashtag/ai" st :=
  reserved_segment_generic "https://x.com/hashtag/ai"
    ⟨"x.com", "/hashtag/ai"⟩ "hashtag".data [['a', 'i']]
    (by decide) (by decide) (by decide) (by decide)

def c7Item : ApifyTweetItem :=
  { type := some "", text := some "hi", url := some "https://a" }

/-- **C7 counterexample.** An item whose type tag is present but the empty
string — hence "present and not the post type" — is *kept*, because the JS
guard `item.type && item.type !== "tweet"` treats a falsy tag as absent. -/
theorem empty_type_tag_cex :
    c7Item.type = some "" ∧ c7Item.type ≠ some "tweet" ∧
    mapApifyItemsToStories [c7Item] "fb" = [⟨"hi", "https://a", "fb"⟩] :=
  ⟨rfl, by decide, by decide⟩

/-- **C7 amended.** The normalizer excludes an item when (a) its type tag
is present, non-empty and not the post type, or (b) it has no
non-whitespace text, or (c) no link is derivable: both URL fields are
absent or blank and the id is absent or empty (a whitespace-only id still
synthesizes a status link, and an empty-string type tag does not exclude);
an excluded item contributes nothing to the output. -/
theorem normalizer_exclusions (item : ApifyTweetItem) (fb : String)
    (h : (∃ t, item.type = some t ∧ t ≠ "" ∧ t ≠ "tweet")
       ∨ jsTrim ((item.text <|> item.full_text).getD "") = ""
       ∨ (jsTrim (item.url.getD "") = ""
          ∧ jsTrim (item.twitterUrl.getD "") = ""
          ∧ (item.id = none ∨ item.id = some ""))) :
    normalizeItem item fb = none ∧
    ∀ pre post : List ApifyTweetItem,
      mapApifyItemsToStories (pre ++ item :: post) fb
        = mapApifyItemsToStories (pre ++ post) fb := by
  have hnone : normalizeItem item fb = none := by
    rcases h with ⟨t, ht, ht1, ht2⟩ | hh | ⟨h1, h2, h3⟩
    · have hsk : skipByType item = true := by
        simp [skipByType, ht, ht1, ht2]
      unfold normalizeItem
      rw [if_pos hsk]
    · have hh' : computeHeadline item = "" := hh
      by_cases hsk : skipByType item = true
      · unfold normalizeItem; rw [if_pos hsk]
      · unfold normalizeItem; rw [if_neg hsk, if_pos hh']
    · have hjs : jsTrim "" = "" := rfl
      have hcl : computeLink item = none := by
        unfold computeLink
        rcases h3 with h3 | h3 <;>
          simp [h3, h1, h2, hjs, List.find?, String.length]
      by_cases hsk : skipByType item = true
      · unfold normalizeItem; rw [if_pos hsk]
      · by_cases hh : computeHeadline item = ""
        · unfold normalizeItem; rw [if_neg hsk, if_pos hh]
        · unfold normalizeItem
          rw [if_neg hsk, if_neg hh]
          simp only [hcl]
  refine ⟨hnone, fun pre post => ?_⟩
  simp only [mapApifyItemsToStories, normalizedEntries,
    List.filterMap_append, List.filterMap_cons, hnone]

def c7BlankItem : ApifyTweetItem := { text := some "hi", url := some "  " }

/-- Witness for the amended C7: a concrete item with only a blank URL and
no id is excluded and removed from a surrounding batch. -/
theorem normalizer_exclusions_witness :
    normalizeItem c7BlankItem "fb" = none ∧
    mapApifyItemsToStories [c4Item, c7BlankItem] "fb"
      = mapApifyItemsToStories [c4Item] "fb" := by
  obtain ⟨h1, h2⟩ := normalizer_exclusions c7BlankItem "fb"
    (Or.inr (Or.inr ⟨by decide, by decide, Or.inl rfl⟩))
  exact ⟨h1, h2 [c4Item] []⟩

/-- **C8.** The configured maximum item count is always positive, defaults
to 20 when the environment variable is unset, and never exceeds 100
regardless of the configured request; and every successful social-backend
call returns at most that many stories (truncation after dedup). -/
theorem apify_max_items_bounds :
    (∀ raw, 0 < computeApifyMaxItems raw ∧ computeApifyMaxItems raw ≤ 100) ∧
    computeApifyMaxItems none = 20 ∧
    (∀ (cfg : Config) (beh : FetchOutcome) (u : String)
      (evs : List LogEvent) (stories : List Story),
      fetchTweetsFromApify cfg beh u = Except.ok (evs, stories) →
      stories.length ≤ cfg.apifyMaxItems) := by
  refine ⟨?_, rfl, ?_⟩
  · intro raw
    cases raw with
    | none => exact ⟨by norm_num [computeApifyMaxItems],
        by norm_num [computeApifyMaxItems]⟩
    | some s =>
      simp only [computeApifyMaxItems]
      by_cases hs : s = ""
      · rw [if_pos hs]; omega
      · rw [if_neg hs]
        cases hp : jsParseInt s with
        | none => simp only; omega
        | some p =>
          simp only
          by_cases h0 : 0 < p
          · rw [if_pos h0]
            refine ⟨Nat.lt_min.mpr ⟨by omega, by omega⟩,
              Nat.min_le_right _ _⟩
          · rw [if_neg h0]; omega
  · exact fun cfg beh u evs stories h =>
      (fetchTweetsFromApify_ok cfg beh u evs stories h).2.2

def c8Cfg : Config := ⟨true, some "250", "fb"⟩

/-- Witness for C8: a configured request of 250 is clamped into (0, 100],
the unset default is 20, and a concrete call returns within the bound. -/
theorem apify_max_items_bounds_witness :
    (0 < computeApifyMaxItems (some "250") ∧
      computeApifyMaxItems (some "250") ≤ 100) ∧
    computeApifyMaxItems none = 20 ∧
    ([] : List Story).length ≤ c8Cfg.apifyMaxItems :=
  ⟨apify_max_items_bounds.1 (some "250"),
   apify_max_items_bounds.2.1,
   apify_max_items_bounds.2.2 c8Cfg
     (FetchOutcome.success ApifyPayload.nonArray) "u"
     [LogEvent.unexpectedApifyFormat] [] (by rfl)⟩

/-- **C5.** In every run with the social backend configured, the backend
is invoked at most once per case-normalized username, whatever the
backend's behaviour and however many source entries normalize to that
username — the second and later entries are skipped. -/
theorem social_invoked_once_per_username (cfg : Config)
    (oracle : Nat → BackendBehavior) (sources : List SourceObj)
    (st : ScrapeState) (nu : String)
    (_hcfg : cfg.hasApifyCredentials = true)
    (hrun : scrapeSourcesRun cfg oracle sources = Except.ok st) :
    apifyInvocations st.trace nu ≤ 1 :=
  (scrapeSourcesRun_spec cfg oracle sources st hrun).1 nu

def c5Cfg : Config := ⟨true, none, "fb"⟩

def c5Oracle : Nat → BackendBehavior :=
  fun _ => ⟨FetchOutcome.success (ApifyPayload.arrayOf
    [{ text := some "hi", url := some "https://t1" }]),
    ExtractOutcome.stories []⟩

def c5Sources : List SourceObj :=
  [⟨"https://x.com/OpenAI"⟩, ⟨"x.com/openai"⟩]

def c5Story : Story := ⟨"hi", "https://t1", "fb"⟩

def c5State : ScrapeState :=
  ⟨[c5Story], ["openai"], true,
   [LogEvent.apifyInvoked "OpenAI", LogEvent.tweetsFound "OpenAI",
    LogEvent.combinedStories [c5Story]]⟩

/-- Witness for C5: a concrete run with two sources normalizing to the
same username records exactly at most one invocation. -/
theorem social_invoked_once_per_username_witness :
    apifyInvocations c5State.trace "openai" ≤ 1 :=
  social_invoked_once_per_username c5Cfg c5Oracle c5Sources c5State
    "openai" rfl (by rfl)

/-- **C9.** A run emits the one-time skipped-social-sources summary notice
exactly once when the social backend is not configured and at least one
source is classified social (`summaryCond`), and never otherwise; the
notice comes after every per-source event of the loop. -/
theorem summary_notice_once (cfg : Config)
    (oracle : Nat → BackendBehavior) (sources : List SourceObj)
    (st : ScrapeState)
    (hrun : scrapeSourcesRun cfg oracle sources = Except.ok st) :
    summaryNoticeCount st.trace
      = (if summaryCond cfg sources then 1 else 0) ∧
    ∃ pre, st.trace = pre ++
        (if summaryCond cfg sources
          then [LogEvent.skippedSummaryNotice] else []) ++
        [LogEvent.combinedStories st.stories] ∧
      summaryNoticeCount pre = 0 :=
  ⟨(scrapeSourcesRun_spec cfg oracle sources st hrun).2.1,
   (scrapeSourcesRun_spec cfg oracle sources st hrun).2.2⟩

def c9Cfg : Config := ⟨false, none, "fb"⟩

def c9Story : Story := ⟨"h", "https://s", "2024-01-01"⟩

def c9Oracle : Nat → BackendBehavior :=
  fun _ => ⟨FetchOutcome.success (ApifyPayload.arrayOf []),
            ExtractOutcome.stories [c9Story]⟩

def c9Sources : List SourceObj :=
  [⟨"https://x.com/openai"⟩, ⟨"https://example.com"⟩]

def c9State : ScrapeState :=
  ⟨[c9Story], [], true,
   [LogEvent.skipNoCreds "https://x.com/openai",
    LogEvent.foundStories "https://example.com" 1,
    LogEvent.skippedSummaryNotice,
    LogEvent.combinedStories [c9Story]]⟩

/-- Witness for C9: unconfigured backend plus one social source yields
exactly one summary notice in the concrete run's trace. -/
theorem summary_notice_once_witness :
    summaryNoticeCount c9State.trace = 1 := by
  have h := (summary_notice_once c9Cfg c9Oracle c9Sources c9State
    (by rfl)).1
  rwa [if_pos (by decide : summaryCond c9Cfg c9Sources = true)] at h

/-- **C10.** With the social backend configured, a fresh username is in
the processed set after its source's iteration whatever the backend call
did — throwing, returning zero stories or succeeding; and processing any
source whose (truthy) username normalizes to an already-recorded one is a
complete skip: no backend call, no trace event, no stories, the state is
unchanged except that `sawTwitterSource` is set. -/
theorem username_recorded_before_call (cfg : Config)
    (beh : BackendBehavior) (src : SourceObj) (st st' : ScrapeState)
    (u : String)
    (hcfg : useTwitter cfg = true)
    (hu : extractTwitterUsername src.identifier = some u)
    (hne : u ≠ "")
    (hstep : processSource cfg beh src st = Except.ok st') :
    strToLower u ∈ st'.processed ∧
    ∀ (beh₂ : BackendBehavior) (src₂ : SourceObj) (u₂ : String)
      (st₂ : ScrapeState),
      extractTwitterUsername src₂.identifier = some u₂ → u₂ ≠ "" →
      strToLower u₂ = strToLower u → strToLower u ∈ st₂.processed →
      processSource cfg beh₂ src₂ st₂
        = Except.ok { st₂ with sawTwitter := true } := by
  constructor
  · simp only [processSource, hu] at hstep
    rw [if_neg hne] at hstep
    simp only [hcfg, if_true] at hstep
    by_cases hmem : strToLower u ∈ st.processed
    · rw [if_pos hmem] at hstep
      obtain rfl := Except.ok.inj hstep
      exact hmem
    · rw [if_neg hmem] at hstep
      rcases fetchTweetsFromApify_total cfg beh.social u with
        ⟨e, hf⟩ | ⟨evs, stories, hf⟩
      · simp only [hf] at hstep
        obtain rfl := (Except.ok.inj hstep).symm
        exact List.mem_cons_self _ _
      · simp only [hf] at hstep
        by_cases hl : stories.length = 0
        · rw [if_pos hl] at hstep
          obtain rfl := (Except.ok.inj hstep).symm
          exact List.mem_cons_self _ _
        · rw [if_neg hl] at hstep
          obtain rfl := (Except.ok.inj hstep).symm
          exact List.mem_cons_self _ _
  · intro beh₂ src₂ u₂ st₂ hu₂ hne₂ hequ hmem₂
    simp only [processSource, hu₂]
    rw [if_neg hne₂]
    simp only [hcfg, if_true]
    rw [if_pos (show strToLower u₂ ∈ st₂.processed from hequ ▸ hmem₂)]

def c10Cfg : Config := ⟨true, none, "fb"⟩

def c10Beh : BackendBehavior :=
  ⟨FetchOutcome.networkError "boom", ExtractOutcome.stories []⟩

def c10After : ScrapeState :=
  ⟨[], ["openai"], true,
   [LogEvent.apifyInvoked "OpenAI", LogEvent.tweetError "OpenAI" "boom"]⟩

/-- Witness for C10: the backend call for `OpenAI` throws, yet the
username is recorded and a later `x.com/openai` source is skipped
entirely. -/
theorem username_recorded_before_call_witness :
    strToLower "OpenAI" ∈ c10After.processed ∧
    processSource c10Cfg c10Beh ⟨"x.com/openai"⟩ c10After
      = Except.ok { c10After with sawTwitter := true } := by
  obtain ⟨h1, h2⟩ := username_recorded_before_call c10Cfg c10Beh
    ⟨"https://x.com/OpenAI"⟩ initialState c10After "OpenAI" rfl
    (by decide) (by decide) (by rfl)
  exact ⟨h1, h2 c10Beh ⟨"x.com/openai"⟩ "openai" c10After (by decide)
    (by decide) (by decide) h1⟩

end TrendFinder
